import Mathlib

/-!
# Verification of `versionedobj` (eriknyquist/versionedconfig)

A shallow embedding of `src/versionedobj/object.py` and proofs about the
claims of the specification.

## Modelling conventions

* Python values are modelled by the mutual inductives `PVal` / `PDict`.
  `PDict` is an insertion-ordered association list, exactly like a Python
  `dict`; `PVal.vdict` is a plain dict value, `PVal.vobj` is a
  `VersionedObject` instance (its instance `__dict__`).  The modelled value
  universe covers `None`, booleans, integers, strings, dicts and versioned
  objects; `CustomValue` leaves and lists are outside the modelled universe
  (no claim quantifies over them).
* Mutation is made explicit: every operation that mutates a Python object in
  place (`setattr` via `_ObjField.set_obj_field`, field assignment in
  `Serializer.from_dict`) returns the updated object; operations that can
  raise return `Except PyErr`.  An `Except.error` models an uncaught Python
  exception, with the object state at raise time returned alongside where a
  claim depends on it.
* Python `x.startswith(y)` is `pyStartswith x y` and `s.split(".")` is
  `pySplitDot s`, both implemented over character lists with Python's
  semantics (in particular `"".split(".") == [""]`).
* Exception *kinds* are modelled faithfully by the constructors of `PyErr`;
  message strings are simplified (they carry the same identifying data but
  not Python's exact formatting).
* The queue-driven generators `_walk_obj_attrs` / `_walk_dict_attrs` are
  modelled with an explicit fuel parameter (one unit per queue frame); the
  top-level wrappers supply fuel that exceeds the number of frames any walk
  can produce, so the fuel never runs out on the arguments that occur.
  The generators share one `parents` list that is appended to at every
  frame and never popped; the model reproduces this exactly (the `parents`
  accumulator is threaded through the whole queue, not reset per frame).
-/

set_option autoImplicit false

namespace VersionedObj

mutual
/-- Python values, restricted to the universe the library manipulates:
`None`, `bool`, `int`, `str`, plain `dict`, and `VersionedObject` instances
(whose payload is their instance `__dict__`). -/
inductive PVal where
  | vnone : PVal
  | vbool (b : Bool) : PVal
  | vint (n : Int) : PVal
  | vstr (s : String) : PVal
  | vdict (d : PDict) : PVal
  | vobj (d : PDict) : PVal
  deriving DecidableEq
inductive PDict where
  | nil : PDict
  | cons (k : String) (v : PVal) (rest : PDict) : PDict
  deriving DecidableEq
end

mutual
/-- Size of a value, used as termination fuel for the queue-driven walkers. -/
def PVal.sz : PVal → Nat
  | .vdict d => 1 + d.sz
  | .vobj d => 1 + d.sz
  | _ => 1
def PDict.sz : PDict → Nat
  | .nil => 1
  | .cons _ v rest => 1 + v.sz + rest.sz
end

/-- Lookup of a key in a Python dict (`d[k]` presence test / access). -/
def pyDictLookup : PDict → String → Option PVal
  | .nil, _ => none
  | .cons k' v rest, k => if k' = k then some v else pyDictLookup rest k

/-- `d.get(k, None)`: lookup defaulting to `None`.  Mirrors Python's
conflation of "key absent" with "key present with value `None`". -/
def pyDictGet (d : PDict) (k : String) : PVal :=
  (pyDictLookup d k).getD .vnone

/-- Python dict assignment `d[k] = v`: updates an existing key in place
(keeping its position in insertion order) or appends a new key. -/
def pyDictSet : PDict → String → PVal → PDict
  | .nil, k, v => .cons k v .nil
  | .cons k' v' rest, k, v =>
      if k' = k then .cons k' v rest else .cons k' v' (pyDictSet rest k v)

/-- Python `del d[k]`: removes the key, preserving the order of the rest. -/
def pyDictDel : PDict → String → PDict
  | .nil, _ => .nil
  | .cons k' v rest, k => if k' = k then rest else .cons k' v (pyDictDel rest k)

/-- Iteration order of a Python dict: its keys in insertion order. -/
def pyDictKeys : PDict → List String
  | .nil => []
  | .cons k _ rest => k :: pyDictKeys rest

/-- Entries of a dict in iteration order. -/
def pyDictEntries : PDict → List (String × PVal)
  | .nil => []
  | .cons k v rest => (k, v) :: pyDictEntries rest

/-- Character-list prefix test used to implement Python `str.startswith`. -/
def charsLead : List Char → List Char → Bool
  | [], _ => true
  | _ :: _, [] => false
  | c :: cs, d :: ds => c = d && charsLead cs ds

/-- Python `s.startswith(pre)`. -/
def pyStartswith (s pre : String) : Bool :=
  charsLead pre.data s.data

/-- Splits a character list on a separator character; mirrors Python
`str.split` with an explicit separator, for which the result is never empty
(in particular `"".split(".") == [""]`). -/
def splitOnChar (c : Char) : List Char → List (List Char)
  | [] => [[]]
  | x :: rest =>
      let r := splitOnChar c rest
      if x = c then [] :: r
      else
        match r with
        | [] => [[x]]
        | g :: gs => (x :: g) :: gs

/-- Python `s.split(".")`. -/
def pySplitDot (s : String) : List String :=
  (splitOnChar '.' s.data).map String.mk

/-- The exception kinds the library can raise (`versionedobj.exceptions`
plus the builtin exceptions the source lets escape). -/
inductive PyErr where
  | attributeError (name : String)
  | typeError
  | inputValidation (msg : String)
  | invalidFilter
  | valueError (msg : String)
  | invalidVersionAttribute (name : String)
  | loadObject
  deriving DecidableEq

/-- `isinstance(v, VersionedObject)`. -/
def isVObj : PVal → Bool
  | .vobj _ => true
  | _ => false

/-- `type(v) == dict`. -/
def isPyDict : PVal → Bool
  | .vdict _ => true
  | _ => false

/-! ## Migration engine (`VersionedObject._vobj__migrate`, lines 498-523) -/

/-- One registered migration: the `(from_version, to_version, migration_func)`
triple appended by the `migration` decorator (line 25). -/
structure Migration where
  fromv : PVal
  tov : PVal
  transform : PDict → PDict

/-- `MigrationResult` (lines 30-45), with `version_reached` at its final
value (the source initialises it to `None` and always overwrites it before
returning). -/
structure MigRes where
  old_version : PVal
  target_version : PVal
  version_reached : PVal
  success : Bool
  deriving DecidableEq

/-- The `for fromversion, toversion, migrate in cls._vobj__migrations` loop
of `_vobj__migrate` (lines 510-516): a single pass over the registered list;
the transform is applied only when `fromversion` matches the marker, but the
marker is advanced to `toversion` unconditionally, and the loop breaks at the
first entry whose `toversion` equals the target.  Returns the final
`version_after_migration` and working map. -/
def migrateLoop : List Migration → PVal → PDict → PVal → PVal × PDict
  | [], vcur, attrs, _ => (vcur, attrs)
  | m :: rest, vcur, attrs, target =>
      let attrs' := if m.fromv = vcur then m.transform attrs else attrs
      if m.tov = target then (m.tov, attrs')
      else migrateLoop rest m.tov attrs' target

/-- `VersionedObject._vobj__migrate(version, attrs)` (lines 498-523).
`migs` is the type's `_vobj__migrations` list and `version` the instance's
`version` attribute. -/
def vobjMigrate (migs : List Migration) (version : PVal) (attrs : PDict) :
    Option MigRes × PDict :=
  let old_version := pyDictGet attrs "version"
  if old_version = version then (none, attrs)
  else
    let (version_after, attrs') := migrateLoop migs old_version attrs version
    (some { old_version := old_version
            target_version := version
            version_reached := version_after
            success := version_after = version }, attrs')

/-! ## Fields and attribute access (`_ObjField`, lines 80-167) -/

/-- `_ObjField` (lines 80-167): a handle on one field, identified by the
list of parent names and the leaf field name. -/
structure ObjField where
  parents : List String
  fieldname : String
  value : PVal
  deriving DecidableEq

/-- `_ObjField.dot_name` (lines 114-118): `'.'.join(self.parents + [self.fieldname])`. -/
def ObjField.dotName (f : ObjField) : String :=
  String.intercalate "." (f.parents ++ [f.fieldname])

/-- Python `getattr(obj, name)` on the modelled universe: attribute lookup in
a `VersionedObject` instance `__dict__`; any other receiver (or a missing
name) raises `AttributeError`. -/
def pyGetattr (obj : PVal) (name : String) : Except PyErr PVal :=
  match obj with
  | .vobj d =>
      match pyDictLookup d name with
      | some v => .ok v
      | none => .error (.attributeError name)
  | _ => .error (.attributeError name)

/-- Python `setattr(obj, name, v)`: update (or create) an attribute of a
`VersionedObject` instance; any other receiver raises `AttributeError`. -/
def pySetattr (obj : PVal) (name : String) (v : PVal) : Except PyErr PVal :=
  match obj with
  | .vobj d => .ok (.vobj (pyDictSet d name v))
  | _ => .error (.attributeError name)

/-- `_ObjField.get_obj_field` (lines 120-134): walk `parents` with `getattr`,
then `getattr` the leaf name. -/
def ObjField.getObjField (f : ObjField) (parent_obj : PVal) : Except PyErr PVal := do
  let mut obj := parent_obj
  for pname in f.parents do
    obj ← pyGetattr obj pname
  pyGetattr obj f.fieldname

/-- Helper for `set_obj_field`: set attribute `name` to `v` at the end of the
`parents` path below `root`, returning the updated root (the source mutates
the nested instance in place; the model rebuilds the spine). -/
def setAttrPath (root : PVal) : List String → String → PVal → Except PyErr PVal
  | [], name, v => pySetattr root name v
  | p :: ps, name, v => do
      let child ← pyGetattr root p
      let child' ← setAttrPath child ps name v
      pySetattr root p child'

/-- `_ObjField.set_obj_field` (lines 136-149): navigate `parents` with
`getattr`, then `setattr` the leaf.  Returns the updated root object. -/
def ObjField.setObjField (f : ObjField) (parent_obj : PVal) : Except PyErr PVal :=
  setAttrPath parent_obj f.parents f.fieldname f.value

/-- Helper for `set_dict_field`: descend the `parents` path below a dict,
creating `{}` for missing keys, then set the leaf key.  A non-dict value met
on the path raises `TypeError` (Python: `pname not in attrs` / item
assignment on a non-dict). -/
def setDictPath (attrs : PDict) : List String → String → PVal → Except PyErr PDict
  | [], name, v => .ok (pyDictSet attrs name v)
  | p :: ps, name, v =>
      match pyDictLookup attrs p with
      | none => do
          let inner ← setDictPath .nil ps name v
          .ok (pyDictSet attrs p (.vdict inner))
      | some (.vdict d) => do
          let inner ← setDictPath d ps name v
          .ok (pyDictSet attrs p (.vdict inner))
      | some _ => .error .typeError

/-- `_ObjField.set_dict_field` (lines 151-167): create nested dicts on demand
along `parents`, then write the value at the leaf key. -/
def ObjField.setDictField (f : ObjField) (parent_attrs : PDict) : Except PyErr PDict :=
  setDictPath parent_attrs f.parents f.fieldname f.value

/-! ## Walking (`_iter_obj_attrs`, `_field_should_be_skipped`,
`_walk_obj_attrs`, `_walk_dict_attrs`, lines 170-254) -/

/-- Name filter of `_iter_obj_attrs` (lines 170-175): skip names starting
with `__` or `_vobj__`. -/
def attrNameSkipped (n : String) : Bool :=
  pyStartswith n "__" || pyStartswith n "_vobj__"

/-- `_iter_obj_attrs(obj)` (lines 170-175): the instance `__dict__` keys in
insertion order, minus dunder/private names. -/
def iterObjAttrs (d : PDict) : List String :=
  (pyDictKeys d).filter (fun n => !attrNameSkipped n)

/-- `_field_should_be_skipped(dotname, only, ignore)` (lines 178-196): with a
non-empty `only`, skip unless some entry prefixes the dot-name; otherwise
skip when some `ignore` entry prefixes it (the source returns `None`, i.e.
falsy, when no `ignore` entry matches). -/
def fieldShouldBeSkipped (dotname : String) (only ignore : List String) : Bool :=
  if only ≠ [] then !(only.any (fun n => pyStartswith dotname n))
  else ignore.any (fun n => pyStartswith dotname n)

/-- One frame of `_walk_obj_attrs` (lines 210-224): given the shared
`parents` (already extended for this frame), produce the yielded fields and
the `(name, dict)` frames enqueued for nested `VersionedObject` values, in
key order. -/
def walkObjFrame (only ignore : List String) (parents : List String) :
    PDict → List ObjField × List (String × PDict)
  | .nil => ([], [])
  | .cons n v rest =>
      let (ys, qs) := walkObjFrame only ignore parents rest
      if attrNameSkipped n then (ys, qs)
      else
        match v with
        | .vobj d => (ys, (n, d) :: qs)
        | _ =>
            let f : ObjField := ⟨parents, n, v⟩
            if fieldShouldBeSkipped f.dotName only ignore then (ys, qs)
            else (f :: ys, qs)

/-- The queue loop of `_walk_obj_attrs` (lines 198-224): FIFO over frames,
where the single `parents` list is appended to at every named frame and
never popped (so it accumulates across sibling sub-objects).  `fuel` bounds
the number of frames processed; the wrapper supplies enough for any input. -/
def walkObjGo (only ignore : List String) :
    Nat → List String → List (Option String × PDict) → List ObjField
  | 0, _, _ => []
  | _, _, [] => []
  | fuel + 1, parents, (fn, d) :: rest =>
      let parents' := match fn with | none => parents | some n => parents ++ [n]
      let (ys, qs) := walkObjFrame only ignore parents' d
      ys ++ walkObjGo only ignore fuel parents'
        (rest ++ qs.map (fun q => (some q.1, q.2)))

/-- Fuel that strictly exceeds the number of frames `_walk_obj_attrs` (or
`_walk_dict_attrs`) can process starting from `d`: every frame consumes a
distinct sub-dict of the initial queue contents. -/
def walkFuel (d : PDict) : Nat :=
  d.sz + 1

/-- `_walk_obj_attrs(parent_obj, only, ignore)` (lines 198-224) as the list
of fields in yield order. -/
def walkObjAttrs (obj : PDict) (only ignore : List String) : List ObjField :=
  walkObjGo only ignore (walkFuel obj) [] [(none, obj)]

/-- Projects the instance `__dict__` out of a `.vobj` value (total with a
junk default; every use site feeds it a `.vobj`). -/
def objOf : PVal → PDict
  | .vobj d => d
  | _ => .nil

/-! ## `Serializer.to_dict` (lines 264-285) -/

/-- The `for field in _walk_obj_attrs(...)` loop of `to_dict` (lines
279-283), with the object threaded through as explicit state: the loop body
writes only the local `ret` dict, never the object.  (The `CustomValue`
branch, line 280-281, is vacuous on the modelled value universe.) -/
def toDictLoop (st : PDict) (ret : PDict) : List ObjField → PDict × Except PyErr PDict
  | [] => (st, .ok ret)
  | f :: fs =>
      match f.setDictField ret with
      | .error e => (st, .error e)
      | .ok ret' => toDictLoop st ret' fs

/-- `Serializer.to_dict(obj, only, ignore)` (lines 264-285).  The first
component is the object after the call (the serializer state); the second is
the produced dict or the raised exception. -/
def toDict (obj : PDict) (only ignore : List String) : PDict × Except PyErr PDict :=
  if only ≠ [] ∧ ignore ≠ [] then (obj, .error .invalidFilter)
  else toDictLoop obj .nil (walkObjAttrs obj only ignore)

/-! ## `Serializer.validate_dict` (lines 287-337) -/

/-- The first loop of `validate_dict` (lines 307-313): build the
`obj_attrs_loaded` dict mapping every walked object dot-name (except
`version`) to `False`. -/
def buildLoaded (fields : List ObjField) : PDict :=
  fields.foldl
    (fun loaded f =>
      if f.dotName = "version" then loaded
      else pyDictSet loaded f.dotName (.vbool false)) .nil

/-- One frame of `_walk_dict_attrs` (lines 239-254) fused with the loop body
of `validate_dict` (lines 317-326).  Processes the frame's keys in order:
each key first resolves the same path on the object (`get_obj_field`, which
may raise `AttributeError`); a key whose object counterpart is a
`VersionedObject` and whose map value is a dict is enqueued; otherwise the
non-filtered field is checked against `obj_attrs_loaded` and marked seen. -/
def validateFrame (root : PVal) (only ignore : List String) (parents : List String) :
    PDict → PDict → Except PyErr (PDict × List (String × PDict))
  | .nil, loaded => .ok (loaded, [])
  | .cons n value rest, loaded => do
      let field : ObjField := ⟨parents, n, value⟩
      let field_value ← field.getObjField root
      match value, isVObj field_value with
      | .vdict d, true => do
          let (loaded', qs) ← validateFrame root only ignore parents rest loaded
          .ok (loaded', (n, d) :: qs)
      | _, _ =>
          if fieldShouldBeSkipped field.dotName only ignore then
            validateFrame root only ignore parents rest loaded
          else if field.dotName = "version" then
            validateFrame root only ignore parents rest loaded
          else if (pyDictLookup loaded field.dotName).isNone then
            .error (.inputValidation
              ("Unrecognized attribute name " ++ field.dotName ++ " in dict"))
          else
            validateFrame root only ignore parents rest
              (pyDictSet loaded field.dotName (.vbool true))

/-- The queue loop of `_walk_dict_attrs` (lines 236-254) driving
`validateFrame`, with the same shared-`parents` accumulation as the object
walker. -/
def validateGo (root : PVal) (only ignore : List String) :
    Nat → List String → List (Option String × PDict) → PDict → Except PyErr PDict
  | 0, _, _, loaded => .ok loaded
  | _, _, [], loaded => .ok loaded
  | fuel + 1, parents, (fn, attrs) :: rest, loaded => do
      let parents' := match fn with | none => parents | some n => parents ++ [n]
      let (loaded', qs) ← validateFrame root only ignore parents' attrs loaded
      validateGo root only ignore fuel parents'
        (rest ++ qs.map (fun q => (some q.1, q.2))) loaded'

/-- `Serializer.validate_dict(obj, attrs, only, ignore)` (lines 287-337):
filter-conflict check, expected-path map from the object walk, parallel map
walk (an `AttributeError` escaping it is re-raised as an input-validation
error, line 327-328), then the aggregated missing-attributes check. -/
def validateDict (obj : PDict) (attrs : PDict) (only ignore : List String) :
    Except PyErr Unit :=
  if only ≠ [] ∧ ignore ≠ [] then .error .invalidFilter
  else
    let loaded := buildLoaded (walkObjAttrs obj only ignore)
    match validateGo (.vobj obj) only ignore (walkFuel attrs) [] [(none, attrs)] loaded with
    | .error (.attributeError m) => .error (.inputValidation m)
    | .error e => .error e
    | .ok loaded' =>
        let missing := (pyDictEntries loaded').filterMap
          (fun p => if p.2 = .vbool false then some p.1 else none)
        if missing ≠ [] then
          .error (.inputValidation
            ("Attributes missing from dict: " ++ String.intercalate "," missing))
        else .ok ()

/-! ## `Serializer.from_dict` (lines 339-380) -/

/-- One frame of `_walk_dict_attrs` fused with the assignment loop of
`from_dict` (lines 373-378), threading the (mutated) root object.  The loop
body re-reads the object field and, as `CustomValue`s are outside the
modelled universe, always runs the `field.set_obj_field(obj)` branch. -/
def assignFrame (only ignore : List String) (parents : List String) :
    PDict → PVal → PVal × Except PyErr (List (String × PDict))
  | .nil, root => (root, .ok [])
  | .cons n value rest, root =>
      let field : ObjField := ⟨parents, n, value⟩
      match field.getObjField root with
      | .error e => (root, .error e)
      | .ok field_value =>
          match value, isVObj field_value with
          | .vdict d, true =>
              match assignFrame only ignore parents rest root with
              | (root', .error e) => (root', .error e)
              | (root', .ok qs) => (root', .ok ((n, d) :: qs))
          | _, _ =>
              if fieldShouldBeSkipped field.dotName only ignore then
                assignFrame only ignore parents rest root
              else
                match field.setObjField root with
                | .error e => (root, .error e)
                | .ok root' => assignFrame only ignore parents rest root'

/-- The queue loop of `_walk_dict_attrs` driving `assignFrame`. -/
def assignGo (only ignore : List String) :
    Nat → List String → List (Option String × PDict) → PVal → PVal × Except PyErr Unit
  | 0, _, _, root => (root, .ok ())
  | _, _, [], root => (root, .ok ())
  | fuel + 1, parents, (fn, attrs) :: rest, root =>
      let parents' := match fn with | none => parents | some n => parents ++ [n]
      match assignFrame only ignore parents' attrs root with
      | (root', .error e) => (root', .error e)
      | (root', .ok qs) =>
          assignGo only ignore fuel parents'
            (rest ++ qs.map (fun q => (some q.1, q.2))) root'

/-- Steps (5)-(7) of `from_dict` (lines 369-380): delete the `version` key
from the working map, then run the assignment walk.  Returns the object
state, and on success the migration result together with the final working
map. -/
def fromDictAssign (migration_result : Option MigRes) (obj : PDict) (attrs1 : PDict)
    (only ignore : List String) : PDict × Except PyErr (Option MigRes × PDict) :=
  let attrs2 :=
    if (pyDictLookup attrs1 "version").isSome then pyDictDel attrs1 "version" else attrs1
  match assignGo only ignore (walkFuel attrs2) [] [(none, attrs2)] (.vobj obj) with
  | (root', .error e) => (objOf root', .error e)
  | (root', .ok _) => (objOf root', .ok (migration_result, attrs2))

/-- Steps (4)-(7) of `from_dict` (lines 366-380): optional validation, then
the version-key deletion and assignment walk. -/
def fromDictMain (migration_result : Option MigRes) (obj : PDict) (attrs1 : PDict)
    (validate : Bool) (only ignore : List String) :
    PDict × Except PyErr (Option MigRes × PDict) :=
  if validate then
    match validateDict obj attrs1 only ignore with
    | .error e => (obj, .error e)
    | .ok _ => fromDictAssign migration_result obj attrs1 only ignore
  else fromDictAssign migration_result obj attrs1 only ignore

/-- `Serializer.from_dict(obj, attrs, validate, only, ignore)` (lines
339-380).  The first component is the target object after the call; the
second is the raised exception, or the returned migration result together
with the working map as of return (the caller's own dict when no migration
transform replaced it). -/
def fromDict (migs : List Migration) (obj : PDict) (attrs : PDict) (validate : Bool)
    (only ignore : List String) : PDict × Except PyErr (Option MigRes × PDict) :=
  if only ≠ [] ∧ ignore ≠ [] then (obj, .error .invalidFilter)
  else
    let version := pyDictGet obj "version"
    let (migration_result, attrs1) := vobjMigrate migs version attrs
    match migration_result with
    | some r =>
        if r.success then fromDictMain (some r) obj attrs1 validate only ignore
        else (obj, .ok (some r, attrs1))
    | none => fromDictMain none obj attrs1 validate only ignore

/-! ## JSON and file wrappers (lines 382-457)

The JSON text encoder/decoder and the file system are external
collaborators (spec section 1); they are modelled by `JsonText` (a rendered
map, or malformed text) and by passing file contents directly. -/

/-- JSON text: either the rendering of a map at some indentation, or
malformed text (on which decoding fails). -/
inductive JsonText where
  | malformed : JsonText
  | rendered (d : PDict) (indent : Option Nat) : JsonText
  deriving DecidableEq

/-- The external `json.dumps` collaborator. -/
def jsonDumps (d : PDict) (indent : Option Nat) : JsonText :=
  .rendered d indent

/-- The external `json.loads` collaborator: `none` models a raised
`JSONDecodeError`. -/
def jsonLoads : JsonText → Option PDict
  | .malformed => none
  | .rendered d _ => some d

/-- `Serializer.to_json(obj, indent, only, ignore)` (lines 382-394). -/
def toJson (obj : PDict) (indent : Option Nat) (only ignore : List String) :
    PDict × Except PyErr JsonText :=
  match toDict obj only ignore with
  | (o, .error e) => (o, .error e)
  | (o, .ok d) => (o, .ok (jsonDumps d indent))

/-- `Serializer.from_json(obj, jsonstr, validate, only, ignore)` (lines
396-421): decode first (`JSONDecodeError` becomes `LoadObjectError`), then
delegate to `from_dict`. -/
def fromJson (migs : List Migration) (obj : PDict) (jsonstr : JsonText) (validate : Bool)
    (only ignore : List String) : PDict × Except PyErr (Option MigRes × PDict) :=
  match jsonLoads jsonstr with
  | none => (obj, .error .loadObject)
  | some d => fromDict migs obj d validate only ignore

/-- `Serializer.to_file(obj, filename, indent, only, ignore)` (lines
423-434): serialize and hand the text to the file collaborator; the model
returns the text written under the given name. -/
def toFile (obj : PDict) (filename : String) (indent : Option Nat)
    (only ignore : List String) : PDict × Except PyErr (String × JsonText) :=
  match toJson obj indent only ignore with
  | (o, .error e) => (o, .error e)
  | (o, .ok txt) => (o, .ok (filename, txt))

/-- `Serializer.from_file(obj, filename, validate, only, ignore)` (lines
436-457): read the file contents (`fs` models the file system) and delegate
to `from_json`. -/
def fromFile (migs : List Migration) (fs : String → JsonText) (obj : PDict)
    (filename : String) (validate : Bool) (only ignore : List String) :
    PDict × Except PyErr (Option MigRes × PDict) :=
  fromJson migs obj (fs filename) validate only ignore

/-! ## `VersionedObject` construction and class machinery
(`__Meta`, `VersionedObject.__init__`, `migration`, lines 9-27, 71-77,
460-496) -/

/-- A `VersionedObject` subclass: its class attributes (defaults, where a
`.vobj` value stands for a nested `VersionedObject` type or instance
default) and its `_vobj__migrations` list. -/
structure VClass where
  dict : PDict
  migrations : List Migration

/-- `__Meta.__new__` (lines 71-77): creating a `VersionedObject` subclass
always succeeds and installs an empty `_vobj__migrations` list; no check of
any kind runs at class-definition time. -/
def classDef (attrs : PDict) : VClass :=
  { dict := attrs, migrations := [] }

/-- The `migration(cls, from_version, to_version)` decorator (lines 9-27):
registration fails with `ValueError` when the class itself declares no
`version` attribute, else appends the triple to the class migration list. -/
def migrationRegister (c : VClass) (from_version to_version : PVal)
    (migration_func : PDict → PDict) : Except PyErr VClass :=
  match pyDictLookup c.dict "version" with
  | none =>
      .error (.valueError "Cannot add migration to un-versioned object. Add a version attribute.")
  | some _ =>
      .ok { c with migrations :=
              c.migrations ++ [⟨from_version, to_version, migration_func⟩] }

/-- The default-population loop of `VersionedObject.__init__` (lines
471-488): copy each class attribute (in order, skipping dunder names) onto
the instance; a nested `VersionedObject` default is rejected when it has a
`version` attribute (`InvalidVersionAttributeError`, lines 482-484) and is
otherwise constructed fresh. -/
def vobjInitFields : PDict → Except PyErr PDict
  | .nil => .ok .nil
  | .cons n v rest =>
      if attrNameSkipped n then vobjInitFields rest
      else
        match v with
        | .vobj d =>
            if (pyDictLookup d "version").isSome then
              .error (.invalidVersionAttribute n)
            else do
              let d' ← vobjInitFields d
              let rest' ← vobjInitFields rest
              .ok (.cons n (.vobj d') rest')
        | _ => do
            let rest' ← vobjInitFields rest
            .ok (.cons n v rest')

/-- `VersionedObject.__init__(initial_values)` (lines 466-496): default
population from the class attributes, then the initial-value overrides
applied by dot-name through the object walker. -/
def vobjInit (cls : VClass) (initial_values : PDict) : Except PyErr PDict := do
  let d ← vobjInitFields cls.dict
  if initial_values = .nil then .ok d
  else
    (walkObjAttrs d [] []).foldlM
      (fun acc f =>
        match pyDictLookup initial_values f.dotName with
        | some v => do
            let root' ← ObjField.setObjField ⟨f.parents, f.fieldname, v⟩ (.vobj acc)
            pure (objOf root')
        | none => pure acc) d

/-! ## Dot-path resolution (`_ObjField.from_dot_name`, `__getitem__`,
`__setitem__`, lines 96-112, 525-532) -/

/-- `_ObjField.from_dot_name(dotname, parent_obj)` (lines 96-112): split the
path on `.` (`"".split(".") == [""]`, so the `len(fields) == 0` guard can
never fire), then read the field's current value. -/
def fromDotName (dotname : String) (parent_obj : PVal) : Except PyErr ObjField :=
  let fields := pySplitDot dotname
  if fields.length = 0 then .error (.inputValidation "Invalid dotname")
  else
    let parents := if fields.length = 1 then [] else fields.dropLast
    let fieldname := if fields.length = 1 then fields.headD "" else fields.getLastD ""
    match ObjField.getObjField ⟨parents, fieldname, .vnone⟩ parent_obj with
    | .error e => .error e
    | .ok value => .ok ⟨parents, fieldname, value⟩

/-- `VersionedObject.__getitem__(key)` (lines 525-527). -/
def vobjGetitem (obj : PDict) (key : String) : Except PyErr PVal := do
  let field ← fromDotName key (.vobj obj)
  field.getObjField (.vobj obj)

/-- `VersionedObject.__setitem__(key, value)` (lines 529-532). -/
def vobjSetitem (obj : PDict) (key : String) (value : PVal) : Except PyErr PDict := do
  let field ← fromDotName key (.vobj obj)
  let root' ← ObjField.setObjField ⟨field.parents, field.fieldname, value⟩ (.vobj obj)
  pure (objOf root')

/-! ## Spec-side reference definitions -/

/-- Modelled from the spec (sections 4.3 and 6): the correct recursive
serialization of an object tree, in which "a nested versioned sub-object
always maps to a nested mapping value under its field name" and every other
attribute is copied to a key of the same name.  Used only to compare the
source's `to_dict`/`validate_dict` against the specified behaviour. -/
def specToDict : PDict → PDict
  | .nil => .nil
  | .cons n v rest =>
      match v with
      | .vobj d => .cons n (.vdict (specToDict d)) (specToDict rest)
      | _ => .cons n v (specToDict rest)

/-- Modelled from the spec (section 4.4): the dot-paths the object declares,
by correct recursive descent (each nested sub-object contributes its fields
under `name.`), excluding the root `version` attribute. -/
def specLeafPaths (pre : List String) : PDict → List String
  | .nil => []
  | .cons n v rest =>
      match v with
      | .vobj d => specLeafPaths (pre ++ [n]) d ++ specLeafPaths pre rest
      | _ =>
          if pre = [] ∧ n = "version" then specLeafPaths pre rest
          else String.intercalate "." (pre ++ [n]) :: specLeafPaths pre rest

/-! ## Helper lemmas -/

/-- Induction principle for `PDict` along its spine (the mutual recursor of
`PVal`/`PDict` is inconvenient for the tactic framework; the lemmas below
never descend into values). -/
def pdictInduction {P : PDict → Prop} (hnil : P .nil)
    (hcons : ∀ k v rest, P rest → P (.cons k v rest)) : ∀ d, P d
  | .nil => hnil
  | .cons k v rest => hcons k v rest (pdictInduction hnil hcons rest)

/-- The version marker after `migrateLoop` equals the target exactly when
some registered entry's `to_version` equals the target (given that the
starting marker differs from the target): the marker is advanced to every
scanned entry's `to_version` unconditionally, and the loop breaks at the
first hit. -/
theorem migrateLoop_fst_eq_target_iff (migs : List Migration) (cur target : PVal)
    (attrs : PDict) (h : cur ≠ target) :
    (migrateLoop migs cur attrs target).1 = target ↔
      target ∈ migs.map Migration.tov := by
  induction migs generalizing cur attrs with
  | nil => simpa [migrateLoop] using h
  | cons m rest ih =>
      rw [migrateLoop, List.map_cons]
      by_cases ht : m.tov = target
      · simp [ht]
      · rw [if_neg ht, ih m.tov _ ht]
        constructor
        · intro h'
          exact List.mem_cons_of_mem _ h'
        · intro h'
          rcases List.mem_cons.mp h' with h1 | h1
          · exact absurd h1.symm ht
          · exact h1

/-- A key that is not among a dict's keys has no lookup result. -/
theorem pyDictLookup_eq_none_of_not_mem (d : PDict) (k : String)
    (h : k ∉ pyDictKeys d) : pyDictLookup d k = none := by
  induction d using pdictInduction with
  | hnil => rfl
  | hcons k' v rest ih =>
      simp only [pyDictKeys, List.mem_cons, not_or] at h
      simp [pyDictLookup, Ne.symm h.1, ih h.2]

/-- Deleting an absent key changes nothing. -/
theorem pyDictDel_eq_of_none (d : PDict) (k : String)
    (h : pyDictLookup d k = none) : pyDictDel d k = d := by
  induction d using pdictInduction with
  | hnil => rfl
  | hcons k' v rest ih =>
      by_cases hk : k' = k
      · simp [pyDictLookup, hk] at h
      · simp only [pyDictLookup, if_neg hk] at h
        simp [pyDictDel, hk, ih h]

/-- After deleting a key from a duplicate-free dict, looking it up fails. -/
theorem pyDictLookup_del_self (d : PDict) (k : String)
    (h : (pyDictKeys d).Nodup) : pyDictLookup (pyDictDel d k) k = none := by
  induction d using pdictInduction with
  | hnil => rfl
  | hcons k' v rest ih =>
      simp only [pyDictKeys, List.nodup_cons] at h
      by_cases hk : k' = k
      · subst hk
        simpa [pyDictDel] using pyDictLookup_eq_none_of_not_mem rest k' h.1
      · simp [pyDictDel, hk, pyDictLookup, ih h.2]

/-- Deleting one key leaves every other key's lookup unchanged. -/
theorem pyDictLookup_del_ne (d : PDict) (k k' : String) (h : k' ≠ k) :
    pyDictLookup (pyDictDel d k) k' = pyDictLookup d k' := by
  induction d using pdictInduction with
  | hnil => rfl
  | hcons k0 v rest ih =>
      by_cases hk : k0 = k
      · subst hk
        simp [pyDictDel, pyDictLookup, Ne.symm h]
      · simp [pyDictDel, hk, pyDictLookup, ih]

/-! ## Claim C1 -/

/-- Transform adding a marker key `g1`, used as a concrete migration. -/
def addG1 : PDict → PDict := fun d => pyDictSet d "g1" (.vint 1)

/-- Transform adding a marker key `g2`, used as a concrete migration. -/
def addG2 : PDict → PDict := fun d => pyDictSet d "g2" (.vint 1)

/-- A registered migration list with a gap: `1 → 2` followed by `3 → 4`
(nothing starts at `2`). -/
def gapMigs : List Migration :=
  [⟨.vint 1, .vint 2, addG1⟩, ⟨.vint 3, .vint 4, addG2⟩]

/-- A starting map at version `1`. -/
def gapAttrs : PDict := .cons "version" (.vint 1) (.cons "a" (.vint 0) .nil)

/-- Claim C1 is false on the code: with the gapped chain `1→2, 3→4` and
target version `4`, `_vobj__migrate` on a version-`1` map *skips over the
gap*: it reports `version_reached = 4` and `success = true` even though the
`3→4` transform was never applied (the final map carries the `1→2` marker
`g1` but not the `3→4` marker `g2`), instead of stalling at `2` with
`success = false` as the claim requires. -/
theorem c1_gap_skipped_counterexample :
    vobjMigrate gapMigs (.vint 4) gapAttrs =
      (some { old_version := .vint 1, target_version := .vint 4,
              version_reached := .vint 4, success := true },
        .cons "version" (.vint 1) (.cons "a" (.vint 0) (.cons "g1" (.vint 1) .nil))) ∧
    pyDictLookup (vobjMigrate gapMigs (.vint 4) gapAttrs).2 "g2" = none := by
  exact ⟨rfl, rfl⟩

/-- Claim C1 as amended: when the input map's version differs from the
target, the engine makes a *single in-order pass* over the registered list
(no rescan), applying an entry's transform only when its `from_version`
equals the current marker but advancing the marker to the entry's
`to_version` unconditionally, and stopping at the first entry whose
`to_version` equals the target; the result records the start and target
versions, `version_reached` is the final marker, and `success` holds iff
the marker reached the target — which happens iff *some* registered entry's
`to_version` equals the target.  So a gap never blocks a later entry whose
`to_version` hits the target (it is skipped over with its transform
unapplied), and the chain stalls with `success = false` exactly when no
registered `to_version` equals the target. -/
theorem c1_single_pass_migration (migs : List Migration) (version : PVal) (attrs : PDict)
    (h : pyDictGet attrs "version" ≠ version) :
    ∃ r attrs', vobjMigrate migs version attrs = (some r, attrs') ∧
      r.old_version = pyDictGet attrs "version" ∧
      r.target_version = version ∧
      r.version_reached = (migrateLoop migs (pyDictGet attrs "version") attrs version).1 ∧
      attrs' = (migrateLoop migs (pyDictGet attrs "version") attrs version).2 ∧
      (r.success = true ↔ r.version_reached = version) ∧
      (r.success = true ↔ version ∈ migs.map Migration.tov) := by
  rcases hml : migrateLoop migs (pyDictGet attrs "version") attrs version with ⟨va, attrs2⟩
  refine ⟨⟨pyDictGet attrs "version", version, va, decide (va = version)⟩, attrs2,
    ?_, rfl, rfl, rfl, rfl, by simp, ?_⟩
  · unfold vobjMigrate
    rw [if_neg h, hml]
  · rw [decide_eq_true_iff]
    have hiff := migrateLoop_fst_eq_target_iff migs (pyDictGet attrs "version") version attrs h
    rw [hml] at hiff
    exact hiff

/-- Witness for `c1_single_pass_migration` at the gapped chain with target
`4` and a version-`1` map. -/
theorem c1_single_pass_migration_witness :
    pyDictGet gapAttrs "version" ≠ PVal.vint 4 ∧
    (∃ r attrs', vobjMigrate gapMigs (.vint 4) gapAttrs = (some r, attrs') ∧
      r.old_version = pyDictGet gapAttrs "version" ∧
      r.target_version = .vint 4 ∧
      r.version_reached = (migrateLoop gapMigs (pyDictGet gapAttrs "version") gapAttrs (.vint 4)).1 ∧
      attrs' = (migrateLoop gapMigs (pyDictGet gapAttrs "version") gapAttrs (.vint 4)).2 ∧
      (r.success = true ↔ r.version_reached = .vint 4) ∧
      (r.success = true ↔ PVal.vint 4 ∈ gapMigs.map Migration.tov)) :=
  ⟨by decide, c1_single_pass_migration gapMigs (.vint 4) gapAttrs (by decide)⟩

/-- A successful `fromDictAssign` returns exactly the migration result it
was handed, together with the working map after the `version`-key
deletion. -/
theorem fromDictAssign_ok_result (mr : Option MigRes) (obj attrs1 : PDict)
    (only ignore : List String) (o : PDict) (r : Option MigRes) (d : PDict)
    (h : fromDictAssign mr obj attrs1 only ignore = (o, .ok (r, d))) :
    r = mr ∧
    d = (if (pyDictLookup attrs1 "version").isSome then pyDictDel attrs1 "version" else attrs1) := by
  simp only [fromDictAssign] at h
  split at h
  · simp at h
  · simp only [Prod.mk.injEq, Except.ok.injEq] at h
    exact ⟨h.2.1.symm, h.2.2.symm⟩

/-- A successful `fromDictMain` returns exactly the migration result it was
handed, together with the working map after the `version`-key deletion. -/
theorem fromDictMain_ok_result (mr : Option MigRes) (obj attrs1 : PDict)
    (validate : Bool) (only ignore : List String) (o : PDict) (r : Option MigRes)
    (d : PDict)
    (h : fromDictMain mr obj attrs1 validate only ignore = (o, .ok (r, d))) :
    r = mr ∧
    d = (if (pyDictLookup attrs1 "version").isSome then pyDictDel attrs1 "version" else attrs1) := by
  unfold fromDictMain at h
  by_cases hv : validate
  · rw [if_pos hv] at h
    rcases hvd : validateDict obj attrs1 only ignore with e | u
    · rw [hvd] at h
      simp at h
    · rw [hvd] at h
      exact fromDictAssign_ok_result mr obj attrs1 only ignore o r d h
  · rw [if_neg hv] at h
    exact fromDictAssign_ok_result mr obj attrs1 only ignore o r d h

/-! ## Claim C7 -/

/-- Claim C7: when the input map's `version` equals the object's current
version, `_vobj__migrate` produces no `MigrationResult` and leaves the
working map untouched (so no migration transform runs), and any successful
`from_dict` call returns `None` as its migration result. -/
theorem c7_equal_versions_no_migration (migs : List Migration) (obj attrs : PDict)
    (validate : Bool) (only ignore : List String)
    (h : pyDictGet attrs "version" = pyDictGet obj "version") :
    vobjMigrate migs (pyDictGet obj "version") attrs = (none, attrs) ∧
    ∀ o r d, fromDict migs obj attrs validate only ignore = (o, .ok (r, d)) → r = none := by
  have hm : vobjMigrate migs (pyDictGet obj "version") attrs = (none, attrs) := by
    unfold vobjMigrate
    rw [if_pos h]
  refine ⟨hm, ?_⟩
  intro o r d hfd
  by_cases hc : only ≠ [] ∧ ignore ≠ []
  · unfold fromDict at hfd
    rw [if_pos hc] at hfd
    simp at hfd
  · have hstep : fromDict migs obj attrs validate only ignore =
        fromDictMain none obj attrs validate only ignore := by
      unfold fromDict
      rw [if_neg hc]
      simp only [hm]
    rw [hstep] at hfd
    exact (fromDictMain_ok_result none obj attrs validate only ignore o r d hfd).1

/-- A flat versioned object at version 1 used as a witness input. -/
def flatObj : PDict := .cons "version" (.vint 1) (.cons "a" (.vint 5) .nil)

/-- A matching input map at version 1 with a different payload value. -/
def flatAttrs : PDict := .cons "version" (.vint 1) (.cons "a" (.vint 7) .nil)

/-- Witness for `c7_equal_versions_no_migration` on a flat object whose map
version matches. -/
theorem c7_equal_versions_no_migration_witness :
    pyDictGet flatAttrs "version" = pyDictGet flatObj "version" ∧
    (vobjMigrate [] (pyDictGet flatObj "version") flatAttrs = (none, flatAttrs) ∧
     ∀ o r d, fromDict [] flatObj flatAttrs true [] [] = (o, .ok (r, d)) → r = none) :=
  ⟨rfl, c7_equal_versions_no_migration [] flatObj flatAttrs true [] [] rfl⟩

/-! ## Claim C9 -/

/-- The serialization loop never changes its object-state component. -/
theorem toDictLoop_fst (st : PDict) (ret : PDict) (fs : List ObjField) :
    (toDictLoop st ret fs).1 = st := by
  induction fs generalizing ret with
  | nil => rfl
  | cons f fs ih =>
      unfold toDictLoop
      rcases f.setDictField ret with e | ret'
      · rfl
      · exact ih ret'

/-- Claim C9: `to_dict`, `to_json` and `to_file` leave the object tree
unchanged — the object component of each call's result is exactly the input
object, for every object and every filter combination. -/
theorem c9_serialize_reads_only (obj : PDict) (only ignore : List String)
    (indent : Option Nat) (filename : String) :
    (toDict obj only ignore).1 = obj ∧
    (toJson obj indent only ignore).1 = obj ∧
    (toFile obj filename indent only ignore).1 = obj := by
  have hd : (toDict obj only ignore).1 = obj := by
    unfold toDict
    by_cases hc : only ≠ [] ∧ ignore ≠ []
    · rw [if_pos hc]
    · rw [if_neg hc]
      exact toDictLoop_fst obj .nil _
  have hj : (toJson obj indent only ignore).1 = obj := by
    unfold toJson
    rcases htd : toDict obj only ignore with ⟨o, res⟩
    have : o = obj := by
      have := hd
      rw [htd] at this
      exact this
    rcases res with e | d <;> simpa using this
  refine ⟨hd, hj, ?_⟩
  unfold toFile
  rcases htj : toJson obj indent only ignore with ⟨o, res⟩
  have ho : o = obj := by
    have := hj
    rw [htj] at this
    exact this
  rcases res with e | txt <;> simpa using ho

/-! ## Claim C3 -/

/-- Claim C3: `from_dict` never touches the target object before migration
has succeeded and validation has passed.  If the migration chain fails the
call returns the failed `MigrationResult` with the object exactly as it was;
if validation raises, the call raises that error with the object exactly as
it was.  (In both cases the assignment walk is never entered.)  `from_json`
and `from_file` behave identically because, once the text decodes, they
delegate to `from_dict` unchanged (`from_file` reads through `from_json`). -/
theorem c3_no_mutation_before_success (migs : List Migration) (obj attrs : PDict)
    (validate : Bool) (only ignore : List String) :
    (∀ r attrs1, (only = [] ∨ ignore = []) →
        vobjMigrate migs (pyDictGet obj "version") attrs = (some r, attrs1) →
        r.success = false →
        fromDict migs obj attrs validate only ignore = (obj, .ok (some r, attrs1))) ∧
    (∀ mres attrs1 e,
        vobjMigrate migs (pyDictGet obj "version") attrs = (mres, attrs1) →
        (∀ r', mres = some r' → r'.success = true) →
        validateDict obj attrs1 only ignore = .error e →
        fromDict migs obj attrs true only ignore = (obj, .error e)) ∧
    (∀ jt : JsonText, jsonLoads jt = some attrs →
        fromJson migs obj jt validate only ignore =
          fromDict migs obj attrs validate only ignore) := by
  refine ⟨?_, ?_, ?_⟩
  rotate_right
  · intro jt hjt
    unfold fromJson
    rw [hjt]
  · intro r attrs1 hfc hm hs
    have hc : ¬(only ≠ [] ∧ ignore ≠ []) := by
      rcases hfc with h1 | h1 <;> simp [h1]
    unfold fromDict
    rw [if_neg hc]
    simp only [hm, hs]
    simp
  · intro mres attrs1 e hm hsucc hvd
    by_cases hc : only ≠ [] ∧ ignore ≠ []
    · have hflt : validateDict obj attrs1 only ignore = .error .invalidFilter := by
        unfold validateDict
        rw [if_pos hc]
      rw [hflt] at hvd
      unfold fromDict
      rw [if_pos hc]
      rw [Except.error.injEq] at hvd
      rw [hvd]
    · unfold fromDict
      rw [if_neg hc]
      simp only [hm]
      cases mres with
      | none =>
          unfold fromDictMain
          simp only [if_pos trivial, if_true, hvd]
      | some r' =>
          have hs := hsucc r' rfl
          simp only [hs, if_true]
          unfold fromDictMain
          simp only [if_true, hvd]

/-- A version-5 input map for the failed-migration witness scenario. -/
def staleAttrs : PDict := .cons "version" (.vint 5) (.cons "a" (.vint 7) .nil)

/-- An input map carrying an attribute the object does not declare. -/
def bogusAttrs : PDict := .cons "version" (.vint 1) (.cons "bogus" (.vint 2) .nil)

/-- Witness for `c3_no_mutation_before_success`: a stalled migration returns
the failed result with `flatObj` untouched, and a validation failure raises
with `flatObj` untouched. -/
theorem c3_no_mutation_before_success_witness :
    fromDict [] flatObj staleAttrs true [] [] =
      (flatObj, .ok (some ⟨.vint 5, .vint 1, .vint 5, false⟩, staleAttrs)) ∧
    fromDict [] flatObj bogusAttrs true [] [] =
      (flatObj, .error (.inputValidation "bogus")) :=
  ⟨(c3_no_mutation_before_success [] flatObj staleAttrs true [] []).1
      ⟨.vint 5, .vint 1, .vint 5, false⟩ staleAttrs (.inl rfl) rfl rfl,
   (c3_no_mutation_before_success [] flatObj bogusAttrs true [] []).2.1
      none bogusAttrs (.inputValidation "bogus") rfl
      (fun _ h => Option.noConfusion h) rfl⟩

/-! ## Claim C10 -/

/-- Claim C10: when the versions already match (so no migration transform
replaces the working map, which stays the caller's own dict) and `from_dict`
completes without error, the `version` key has been deleted from the map in
place: the final working map is the input map minus `version`, it no longer
contains `version`, and every other key is unchanged.  (The duplicate-free
hypothesis is the invariant every Python dict satisfies.) -/
theorem c10_version_deleted_in_place (migs : List Migration) (obj attrs : PDict)
    (validate : Bool) (only ignore : List String) (o : PDict) (r : Option MigRes)
    (d : PDict)
    (hnd : (pyDictKeys attrs).Nodup)
    (hv : pyDictGet attrs "version" = pyDictGet obj "version")
    (hok : fromDict migs obj attrs validate only ignore = (o, .ok (r, d))) :
    d = pyDictDel attrs "version" ∧
    pyDictLookup d "version" = none ∧
    ∀ k, k ≠ "version" → pyDictLookup d k = pyDictLookup attrs k := by
  have hm : vobjMigrate migs (pyDictGet obj "version") attrs = (none, attrs) := by
    unfold vobjMigrate
    rw [if_pos hv]
  by_cases hc : only ≠ [] ∧ ignore ≠ []
  · unfold fromDict at hok
    rw [if_pos hc] at hok
    simp at hok
  · have hstep : fromDict migs obj attrs validate only ignore =
        fromDictMain none obj attrs validate only ignore := by
      unfold fromDict
      rw [if_neg hc]
      simp only [hm]
    rw [hstep] at hok
    have hd := (fromDictMain_ok_result none obj attrs validate only ignore o r d hok).2
    have hdel : d = pyDictDel attrs "version" := by
      rcases hlv : pyDictLookup attrs "version" with _ | v
      · rw [hd, hlv]
        simp only [Option.isSome_none, Bool.false_eq_true, if_false]
        exact (pyDictDel_eq_of_none attrs "version" hlv).symm
      · rw [hd, hlv]
        simp
    refine ⟨hdel, ?_, ?_⟩
    · rw [hdel]
      exact pyDictLookup_del_self attrs "version" hnd
    · intro k hk
      rw [hdel]
      exact pyDictLookup_del_ne attrs "version" k hk

/-- `flatObj` after loading `flatAttrs` (its `a` field overwritten). -/
def flatObjLoaded : PDict := .cons "version" (.vint 1) (.cons "a" (.vint 7) .nil)

/-- Witness for `c10_version_deleted_in_place` on the flat object: the
working map comes back as `flatAttrs` minus its `version` key. -/
theorem c10_version_deleted_in_place_witness :
    (pyDictKeys flatAttrs).Nodup ∧
    (pyDictDel flatAttrs "version" = .cons "a" (.vint 7) .nil ∧
     (.cons "a" (.vint 7) .nil : PDict) = pyDictDel flatAttrs "version" ∧
     pyDictLookup (.cons "a" (.vint 7) .nil : PDict) "version" = none ∧
     ∀ k, k ≠ "version" →
       pyDictLookup (.cons "a" (.vint 7) .nil : PDict) k = pyDictLookup flatAttrs k) :=
  ⟨by decide, rfl,
   c10_version_deleted_in_place [] flatObj flatAttrs true [] [] flatObjLoaded none
     (.cons "a" (.vint 7) .nil) (by decide) rfl rfl⟩

/-! ## Claim C6 -/

/-- Claim C6 is false on the code for `from_json` (and hence `from_file`):
JSON decoding runs *before* the filter check, so calling `from_json` with
malformed text and both filters non-empty raises the decode error, not the
filter-conflict error the claim requires for every entry point regardless of
the other arguments. -/
theorem c6_from_json_decode_first_counterexample :
    fromJson [] flatObj .malformed true ["a"] ["b"] = (flatObj, .error .loadObject) ∧
    PyErr.loadObject ≠ PyErr.invalidFilter := by
  exact ⟨rfl, by decide⟩

/-- Claim C6 as amended: with both `only` and `ignore` non-empty, `to_dict`,
`validate_dict`, `from_dict`, `to_json` and `to_file` raise the
filter-conflict error before any traversal (the object comes back untouched
and no migration result is produced); `from_json` and `from_file` do so as
well *once the JSON text decodes*, but on malformed text they raise the
decode error first. -/
theorem c6_filter_conflict (migs : List Migration) (obj attrs : PDict)
    (validate : Bool) (only ignore : List String) (indent : Option Nat)
    (filename : String) (jt : JsonText) (fs : String → JsonText)
    (h1 : only ≠ []) (h2 : ignore ≠ []) :
    toDict obj only ignore = (obj, .error .invalidFilter) ∧
    validateDict obj attrs only ignore = .error .invalidFilter ∧
    fromDict migs obj attrs validate only ignore = (obj, .error .invalidFilter) ∧
    toJson obj indent only ignore = (obj, .error .invalidFilter) ∧
    toFile obj filename indent only ignore = (obj, .error .invalidFilter) ∧
    (∀ d, jsonLoads jt = some d →
        fromJson migs obj jt validate only ignore = (obj, .error .invalidFilter)) ∧
    (jsonLoads jt = none →
        fromJson migs obj jt validate only ignore = (obj, .error .loadObject)) ∧
    (∀ d, jsonLoads (fs filename) = some d →
        fromFile migs fs obj filename validate only ignore = (obj, .error .invalidFilter)) := by
  have hc : only ≠ [] ∧ ignore ≠ [] := ⟨h1, h2⟩
  have hd : toDict obj only ignore = (obj, .error .invalidFilter) := by
    unfold toDict
    rw [if_pos hc]
  have hfd : fromDict migs obj attrs validate only ignore = (obj, .error .invalidFilter) := by
    unfold fromDict
    rw [if_pos hc]
  have hj : toJson obj indent only ignore = (obj, .error .invalidFilter) := by
    unfold toJson
    rw [hd]
  have hfj : ∀ jt' : JsonText, ∀ d, jsonLoads jt' = some d →
      fromJson migs obj jt' validate only ignore = (obj, .error .invalidFilter) := by
    intro jt' d hdec
    unfold fromJson
    rw [hdec]
    show fromDict migs obj d validate only ignore = (obj, .error .invalidFilter)
    unfold fromDict
    rw [if_pos hc]
  refine ⟨hd, ?_, hfd, hj, ?_, hfj jt, ?_, ?_⟩
  · unfold validateDict
    rw [if_pos hc]
  · unfold toFile
    rw [hj]
  · intro hdec
    unfold fromJson
    rw [hdec]
  · intro d hdec
    unfold fromFile
    exact hfj (fs filename) d hdec

/-- Witness for `c6_filter_conflict` at singleton filters on the flat
object. -/
theorem c6_filter_conflict_witness :
    (["a"] : List String) ≠ [] ∧ (["b"] : List String) ≠ [] ∧
    (toDict flatObj ["a"] ["b"] = (flatObj, .error .invalidFilter) ∧
     validateDict flatObj flatAttrs ["a"] ["b"] = .error .invalidFilter ∧
     fromDict [] flatObj flatAttrs true ["a"] ["b"] = (flatObj, .error .invalidFilter) ∧
     toJson flatObj none ["a"] ["b"] = (flatObj, .error .invalidFilter) ∧
     toFile flatObj "f.json" none ["a"] ["b"] = (flatObj, .error .invalidFilter) ∧
     (∀ d, jsonLoads (.rendered flatAttrs none) = some d →
         fromJson [] flatObj (.rendered flatAttrs none) true ["a"] ["b"] =
           (flatObj, .error .invalidFilter)) ∧
     (jsonLoads (.rendered flatAttrs none) = none →
         fromJson [] flatObj (.rendered flatAttrs none) true ["a"] ["b"] =
           (flatObj, .error .loadObject)) ∧
     (∀ d, jsonLoads ((fun _ => JsonText.rendered flatAttrs none) "f.json") = some d →
         fromFile [] (fun _ => JsonText.rendered flatAttrs none) flatObj "f.json" true ["a"] ["b"] =
           (flatObj, .error .invalidFilter))) :=
  ⟨by decide, by decide,
   c6_filter_conflict [] flatObj flatAttrs true ["a"] ["b"] none "f.json"
     (.rendered flatAttrs none) (fun _ => JsonText.rendered flatAttrs none)
     (by decide) (by decide)⟩

/-! ## Claim C5 -/

/-- Is this value a nested `VersionedObject` that itself declares a
`version` attribute? -/
def subDeclaresVersion : PVal → Bool
  | .vobj d => (pyDictLookup d "version").isSome
  | _ => false

/-- Does some (non-skipped) class attribute hold a nested `VersionedObject`
that itself declares a `version` attribute?  This is the shape claim C5 is
about. -/
def hasVersionedSub : PDict → Bool
  | .nil => false
  | .cons n v rest =>
      (!attrNameSkipped n && subDeclaresVersion v) || hasVersionedSub rest

/-- Sizes of values are positive. -/
theorem pvalSzPos (v : PVal) : 1 ≤ v.sz := by
  cases v <;> simp [PVal.sz]

/-- Sizes of dicts are positive. -/
theorem pdictSzPos (d : PDict) : 1 ≤ d.sz := by
  cases d <;> simp [PDict.sz]
  omega

/-- Case analysis on a failing `Except` bind. -/
theorem exceptBindError {A B : Type} (x : Except PyErr A) (f : A → Except PyErr B)
    (e : PyErr) (h : Bind.bind x f = Except.error e) :
    x = .error e ∨ ∃ a, x = .ok a ∧ f a = .error e := by
  cases x with
  | error e1 =>
      have h' : (Except.error e1 : Except PyErr B) = .error e := h
      injection h' with he
      exact Or.inl (by rw [he])
  | ok a => exact Or.inr ⟨a, rfl, h⟩

/-- Every failure of the default-population loop is the
`InvalidVersionAttributeError` (the only `raise` in `__init__`'s default
loop), shown by strong induction on the size bound `N`. -/
theorem vobjInitFields_error_shape :
    ∀ (N : Nat) (attrs : PDict), attrs.sz ≤ N → ∀ e : PyErr,
      vobjInitFields attrs = .error e → ∃ n, e = .invalidVersionAttribute n := by
  intro N
  induction N with
  | zero =>
      intro attrs hle
      exact absurd (le_trans (pdictSzPos attrs) hle) (by simp)
  | succ N ih =>
      intro attrs hle e h
      cases attrs with
      | nil => simp [vobjInitFields] at h
      | cons n v rest =>
          have hrest : rest.sz ≤ N := by
            have h1 := pvalSzPos v
            have h2 : PDict.sz (.cons n v rest) = 1 + v.sz + rest.sz := rfl
            omega
          unfold vobjInitFields at h
          by_cases hskip : attrNameSkipped n
          · rw [if_pos hskip] at h
            exact ih rest hrest e h
          · rw [if_neg hskip] at h
            split at h
            · rename_i d
              have hdle : d.sz ≤ N := by
                have h1 := pdictSzPos rest
                have h2 : PDict.sz (.cons n (.vobj d) rest) = 1 + (1 + d.sz) + rest.sz := rfl
                omega
              by_cases hver : (pyDictLookup d "version").isSome
              · rw [if_pos hver] at h
                injection h with h1
                exact ⟨n, h1.symm⟩
              · rw [if_neg hver] at h
                rcases exceptBindError _ _ _ h with h1 | ⟨d1, hd1, h1⟩
                · exact ih d hdle e h1
                · rcases exceptBindError _ _ _ h1 with h2 | ⟨r1, hr1, h2⟩
                  · exact ih rest hrest e h2
                  · exact Except.noConfusion h2
            · rcases exceptBindError _ _ _ h with h1 | ⟨r1, hr1, h1⟩
              · exact ih rest hrest e h1
              · exact Except.noConfusion h1

/-- If some class attribute holds a version-declaring nested object, the
default-population loop fails with the `InvalidVersionAttributeError`. -/
theorem vobjInitFields_error_of_versioned_sub (attrs : PDict)
    (h : hasVersionedSub attrs = true) :
    ∃ n, vobjInitFields attrs = .error (.invalidVersionAttribute n) := by
  induction attrs using pdictInduction with
  | hnil => simp [hasVersionedSub] at h
  | hcons n v rest ih =>
      rw [hasVersionedSub] at h
      cases hskip : attrNameSkipped n with
      | true =>
          rw [hskip] at h
          simp only [Bool.not_true, Bool.false_and, Bool.false_or] at h
          obtain ⟨m, hm⟩ := ih h
          refine ⟨m, ?_⟩
          unfold vobjInitFields
          rw [if_pos hskip, hm]
      | false =>
          have hnskip : ¬(attrNameSkipped n = true) := by simp [hskip]
          rw [hskip] at h
          simp only [Bool.not_false, Bool.true_and] at h
          cases v with
          | vobj d =>
              simp only [subDeclaresVersion] at h
              have hred : vobjInitFields (.cons n (.vobj d) rest) =
                  (if (pyDictLookup d "version").isSome then
                    Except.error (PyErr.invalidVersionAttribute n)
                  else do
                    let d' ← vobjInitFields d
                    let rest' ← vobjInitFields rest
                    Except.ok (.cons n (.vobj d') rest')) := by
                conv_lhs => unfold vobjInitFields
                rw [if_neg hnskip]
              by_cases hver : (pyDictLookup d "version").isSome
              · refine ⟨n, ?_⟩
                rw [hred, if_pos hver]
              · have hver' : (pyDictLookup d "version").isSome = false := by
                  cases hx : (pyDictLookup d "version").isSome with
                  | false => rfl
                  | true => exact absurd hx hver
                rw [hver'] at h
                simp only [Bool.false_or] at h

                obtain ⟨m, hm⟩ := ih h
                rcases hd : vobjInitFields d with e1 | d1
                · obtain ⟨m2, hm2⟩ := vobjInitFields_error_shape d.sz d le_rfl e1 hd
                  refine ⟨m2, ?_⟩
                  rw [hred, if_neg hver, hd, hm2]
                  rfl
                · refine ⟨m, ?_⟩
                  rw [hred, if_neg hver, hd, hm]
                  rfl
          | vnone =>
              simp only [subDeclaresVersion, Bool.false_or] at h
              obtain ⟨m, hm⟩ := ih h
              refine ⟨m, ?_⟩
              have hred : vobjInitFields (.cons n .vnone rest) =
                  (do let rest' ← vobjInitFields rest
                      Except.ok (.cons n .vnone rest')) := by
                conv_lhs => unfold vobjInitFields
                rw [if_neg hnskip]
              rw [hred, hm]
              rfl
          | vbool b =>
              simp only [subDeclaresVersion, Bool.false_or] at h
              obtain ⟨m, hm⟩ := ih h
              refine ⟨m, ?_⟩
              have hred : vobjInitFields (.cons n (.vbool b) rest) =
                  (do let rest' ← vobjInitFields rest
                      Except.ok (.cons n (.vbool b) rest')) := by
                conv_lhs => unfold vobjInitFields
                rw [if_neg hnskip]
              rw [hred, hm]
              rfl
          | vint m0 =>
              simp only [subDeclaresVersion, Bool.false_or] at h
              obtain ⟨m, hm⟩ := ih h
              refine ⟨m, ?_⟩
              have hred : vobjInitFields (.cons n (.vint m0) rest) =
                  (do let rest' ← vobjInitFields rest
                      Except.ok (.cons n (.vint m0) rest')) := by
                conv_lhs => unfold vobjInitFields
                rw [if_neg hnskip]
              rw [hred, hm]
              rfl
          | vstr s0 =>
              simp only [subDeclaresVersion, Bool.false_or] at h
              obtain ⟨m, hm⟩ := ih h
              refine ⟨m, ?_⟩
              have hred : vobjInitFields (.cons n (.vstr s0) rest) =
                  (do let rest' ← vobjInitFields rest
                      Except.ok (.cons n (.vstr s0) rest')) := by
                conv_lhs => unfold vobjInitFields
                rw [if_neg hnskip]
              rw [hred, hm]
              rfl
          | vdict dd =>
              simp only [subDeclaresVersion, Bool.false_or] at h
              obtain ⟨m, hm⟩ := ih h
              refine ⟨m, ?_⟩
              have hred : vobjInitFields (.cons n (.vdict dd) rest) =
                  (do let rest' ← vobjInitFields rest
                      Except.ok (.cons n (.vdict dd) rest')) := by
                conv_lhs => unfold vobjInitFields
                rw [if_neg hnskip]
              rw [hred, hm]
              rfl

/-- A class whose attribute `sub` is a nested `VersionedObject` type that
illegally declares `version`. -/
def badCls : PDict :=
  .cons "sub" (.vobj (.cons "version" (.vint 1) .nil)) .nil

/-- Claim C5 is false on the code about *when* the nested-version error is
raised: creating the class (`__Meta.__new__`) performs no check and always
succeeds, and the `InvalidVersionAttributeError` only surfaces when
`VersionedObject.__init__` runs, i.e. at first instantiation of the
containing type, not at class-definition time. -/
theorem c5_error_at_instantiation_counterexample :
    classDef badCls = { dict := badCls, migrations := [] } ∧
    vobjInit (classDef badCls) .nil = .error (.invalidVersionAttribute "sub") :=
  ⟨rfl, rfl⟩

/-- Claim C5 as amended: a type one of whose (non-private) class attributes
is a nested `VersionedObject` declaring a `version` attribute raises the
schema-definition (`InvalidVersionAttributeError`) failure at *instance
construction time* — class definition itself always succeeds — while
registering a migration on a type without a `version` class attribute does
raise the `ValueError` at definition (registration) time. -/
theorem c5_schema_definition_errors :
    (∀ attrs iv : PDict, hasVersionedSub attrs = true →
        ∃ n, vobjInit (classDef attrs) iv = .error (.invalidVersionAttribute n)) ∧
    (∀ (c : VClass) (from_version to_version : PVal) (g : PDict → PDict),
        pyDictLookup c.dict "version" = none →
        migrationRegister c from_version to_version g =
          .error (.valueError
            "Cannot add migration to un-versioned object. Add a version attribute.")) := by
  constructor
  · intro attrs iv hsub
    obtain ⟨n, hn⟩ := vobjInitFields_error_of_versioned_sub attrs hsub
    refine ⟨n, ?_⟩
    unfold vobjInit
    simp only [classDef] at hn ⊢
    rw [hn]
    rfl
  · intro c from_version to_version g hver
    unfold migrationRegister
    rw [hver]

/-- Witness for `c5_schema_definition_errors` at `badCls` and at a
version-less class. -/
theorem c5_schema_definition_errors_witness :
    hasVersionedSub badCls = true ∧
    pyDictLookup (VClass.dict ⟨.cons "a" (.vint 1) .nil, []⟩) "version" = none ∧
    (∃ n, vobjInit (classDef badCls) .nil = .error (.invalidVersionAttribute n)) ∧
    migrationRegister ⟨.cons "a" (.vint 1) .nil, []⟩ (.vint 1) (.vint 2) id =
      .error (.valueError
        "Cannot add migration to un-versioned object. Add a version attribute.") :=
  ⟨by decide, rfl,
   (c5_schema_definition_errors).1 badCls .nil (by decide),
   (c5_schema_definition_errors).2 ⟨.cons "a" (.vint 1) .nil, []⟩ (.vint 1) (.vint 2) id rfl⟩

/-! ## Claims C2 and C4 -/

/-- A class with two *sibling* nested sub-objects (`sub1`, `sub2`) beside a
scalar field — the shape on which the walker's shared `parents` list goes
wrong. -/
def sibCls : PDict :=
  .cons "version" (.vint 1) (.cons "a" (.vint 10)
    (.cons "sub1" (.vobj (.cons "x" (.vint 2) .nil))
      (.cons "sub2" (.vobj (.cons "y" (.vint 3) .nil)) .nil)))

/-- The instance built from `sibCls` (defaults are copied unchanged). -/
def sibObj : PDict := sibCls

/-- What `to_dict` actually produces for `sibObj`: `sub2` is wrongly nested
*inside* `sub1` because the walker appends `sub2` to the same `parents` list
it used for `sub1` and never pops it. -/
def sibBuggyDict : PDict :=
  .cons "version" (.vint 1) (.cons "a" (.vint 10)
    (.cons "sub1"
      (.vdict (.cons "x" (.vint 2)
        (.cons "sub2" (.vdict (.cons "y" (.vint 3) .nil)) .nil))) .nil))

/-- Claim C2 fails on the code: for an object with two sibling nested
sub-objects, `to_dict` misplaces the second sibling inside the first
(`sub1.sub2.y` instead of `sub2.y`), so `from_dict(to_dict(obj))` on a
freshly constructed object raises an input-validation error instead of
reproducing the object.  The walker's `parents` list (lines 207-213) is
shared across queue frames and never popped; the spec's round-trip property
is the clear intent. -/
theorem c2_roundtrip_broken_for_siblings :
    vobjInit (classDef sibCls) .nil = .ok sibObj ∧
    toDict sibObj [] [] = (sibObj, .ok sibBuggyDict) ∧
    sibBuggyDict ≠ specToDict sibObj ∧
    fromDict [] sibObj sibBuggyDict true [] [] =
      (sibObj, .error (.inputValidation "sub2")) :=
  ⟨rfl, rfl, by decide, rfl⟩

/-- An object with two sibling nested sub-objects `a` and `b`. -/
def abObj : PDict :=
  .cons "version" (.vint 1) (.cons "a" (.vobj (.cons "p" (.vint 1) .nil))
    (.cons "b" (.vobj (.cons "q" (.vint 2) .nil)) .nil))

/-- An input map populating only the declared path `b.q`. -/
def abMap : PDict :=
  .cons "b" (.vdict (.cons "q" (.vint 2) .nil)) .nil

/-- Claim C4 fails on the code: `validate_dict` rejects the object's own
spec-faithful serialization (raising the wrapped `AttributeError` on a map
that contains exactly the declared, non-filtered paths), and it raises the
"unrecognized attribute" error for `b.q` even though `b.q` *is* declared by
the object — both because the walker's shared `parents` list corrupts
dot-paths whenever two nested sub-objects occupy different queue frames. -/
theorem c4_validate_dict_misreports_siblings :
    specLeafPaths [] sibObj = ["a", "sub1.x", "sub2.y"] ∧
    validateDict sibObj (specToDict sibObj) [] [] =
      .error (.inputValidation "sub2") ∧
    specLeafPaths [] abObj = ["a.p", "b.q"] ∧
    validateDict abObj abMap [] [] =
      .error (.inputValidation "Unrecognized attribute name b.q in dict") :=
  ⟨rfl, rfl, rfl, rfl⟩

/-! ## Claim C8 -/

/-- Claim C8 fails on the code: `"".split(".")` is `[""]`, never `[]`, so
the `len(fields) == 0` guard of `from_dot_name` (lines 102-103) is dead code
and the intended distinct `InputValidationError("Invalid dotname")` is never
raised.  Resolving the empty dot-path falls through to `getattr(obj, "")`,
which raises a plain `AttributeError` — the *same* failure kind as a
non-empty path whose intermediate segment does not exist. -/
theorem c8_empty_dotpath_not_distinct :
    pySplitDot "" = [""] ∧
    fromDotName "" (.vobj flatObj) = .error (.attributeError "") ∧
    vobjGetitem flatObj "" = .error (.attributeError "") ∧
    fromDotName "missing.x" (.vobj flatObj) = .error (.attributeError "missing") :=
  ⟨rfl, rfl, rfl, rfl⟩

end VersionedObj
